import Mathlib

namespace GitflowSpec

/-- Error taxonomy of the tool (spec section 7); each constructor carries the
message text passed to exitWithError in the source. `debugExit` models the
bare exit() call in runCommands under debug mode. -/
inductive GFError where
  | validation (msg : String)
  | state (msg : String)
  | mergeConflict (msg : String)
  | commandExecution (msg : String)
  | configuration (msg : String)
  | debugExit
  deriving Repr, DecidableEq

/-- Result of executing one shell command, as shelljs reports it
(exit code, stdout, stderr). -/
structure ExecResult where
  code : Nat
  stdout : String
  stderr : String
  deriving Repr, DecidableEq

/-- The Git Flow configuration (GitFlow.js class field `config`).  Absent
string fields are modelled as ""; the four prefixes are flattened. -/
structure Config where
  mainBranch : String
  developBranch : String
  useStaging : Bool
  stagingBranch : String
  pushBranches : Bool
  createBranches : Bool
  debug : Bool
  prefixFeature : String
  prefixRelease : String
  prefixBugfix : String
  prefixHotfix : String
  deriving Repr, DecidableEq

/-- The observable state of the underlying git repository during one
invocation.  Queued commands are not executed until runCommands, so every
query (shell.exec of a read-only git command) sees this fixed state:
`currentBranch` is the trimmed stdout of `git branch --show-current`,
`localBranches` those names for which `git rev-parse --verify` exits 0,
`hash` the trimmed stdout of `git rev-parse <branch>`, `statusStdout` the
raw stdout of `git status --porcelain`, and `diffStdout`/`diffStderr` the
streams of `git diff --name-only --diff-filter=U`. -/
structure RepoState where
  currentBranch : String
  localBranches : List String
  hash : String → String
  statusStdout : String
  diffStdout : String
  diffStderr : String

/-- Mutable state of one GitFlow instance: the command queue (`commands`
field in the source) plus the audit list of commands actually executed by
shell.exec during runCommands. -/
structure St where
  queue : List String
  executed : List String
  deriving Repr, DecidableEq

/-- Computation of one GitFlow method: transforms the instance state and
either returns a value or terminates with exitWithError (modelled as
Except.error, which short-circuits the rest of the invocation). -/
def M (α : Type) : Type := St → Except GFError α × St

/-- Sequencing of two computations: run the first, feed its result to the
second, short-circuiting on error (process exit). -/
def bindM {α β : Type} (x : M α) (f : α → M β) : M β := fun s =>
  match x s with
  | (.ok a, s') => f a s'
  | (.error e, s') => (.error e, s')

instance : Monad M where
  pure a := fun s => (.ok a, s)
  bind := bindM

/-- exitWithError / exitWithMessage: terminal failure carrying the message. -/
def throwM {α : Type} (e : GFError) : M α := fun s => (.error e, s)

/-- GitFlow.addCommand: append a command string to the queue. -/
def addCommand (c : String) : M Unit := fun s =>
  (.ok (), { s with queue := s.queue ++ [c] })

/-- Whitespace recognised by String.prototype.trim on the outputs that occur
here (space, newline, tab, carriage return). -/
def isWsChar (c : Char) : Bool := c = ' ' || c = '\n' || c = '\t' || c = '\r'

/-- Drop leading and trailing whitespace from a character list. -/
def trimChars (cs : List Char) : List Char :=
  ((cs.dropWhile isWsChar).reverse.dropWhile isWsChar).reverse

/-- JavaScript s.trim(): structural-recursion model used so concrete runs
evaluate in the kernel. -/
def strTrim (s : String) : String := ⟨trimChars s.data⟩

/-- JavaScript s.split(sep) for a one-character separator. -/
def splitOnChar (sep : Char) : List Char → List (List Char)
  | [] => [[]]
  | c :: rest =>
    let r := splitOnChar sep rest
    if c = sep then [] :: r
    else
      match r with
      | [] => [[c]]
      | h :: t => (c :: h) :: t

/-- String-level wrapper of splitOnChar. -/
def strSplitOnChar (sep : Char) (s : String) : List String :=
  (splitOnChar sep s.data).map (fun l => String.mk l)

-- 🔹 Read-only queries against the repository (GitFlow.js lines 221-337)

/-- GitFlow.getCurrentBranchName: trimmed stdout of git branch
--show-current. -/
def getCurrentBranchName (repo : RepoState) : String := repo.currentBranch

/-- GitFlow.branchExistsLocal: git rev-parse --verify exits 0. -/
def branchExistsLocal (repo : RepoState) (branch : String) : Bool :=
  repo.localBranches.contains branch

/-- GitFlow.branchesMatch: the two rev-parse hashes (trimmed) coincide. -/
def branchesMatch (repo : RepoState) (b1 b2 : String) : Bool :=
  repo.hash b1 == repo.hash b2

/-- The unmerged paths reported by GitFlow.checkMergeConflicts:
stdout.trim().split('\n').filter(file => file). -/
def conflictFiles (repo : RepoState) : List String :=
  (strSplitOnChar '\n' (strTrim repo.diffStdout)).filter (fun f => f ≠ "")

/-- GitFlow.checkMergeConflicts (lines 298-314): exits on stderr, else
reports whether the unmerged-path list is non-empty.  This is a point-in-time
read of the working tree; the queued merge has not run when it is called. -/
def checkMergeConflicts (repo : RepoState) : M Bool :=
  if repo.diffStderr ≠ "" then throwM (.commandExecution repo.diffStderr)
  else if 0 < (conflictFiles repo).length then pure true
  else pure false

/-- GitFlow.checkWorkingTreeClean (lines 331-337): exits with an error when
git status --porcelain prints anything. -/
def checkWorkingTreeClean (repo : RepoState) : M Bool :=
  if strTrim repo.statusStdout ≠ "" then
    throwM (.state
      "Uncommitted changes exist. Please commit or stash your changes before switching branches.")
  else pure true

-- 🔹 Validation (GitFlow.js lines 156-186, utils.js lines 61-64)

/-- A character inside the class [a-zA-Z0-9-_./] of isValidBranchName. -/
def validChar (c : Char) : Bool :=
  ('a' ≤ c && c ≤ 'z') || ('A' ≤ c && c ≤ 'Z') || ('0' ≤ c && c ≤ '9') ||
    c = '-' || c = '_' || c = '.' || c = '/'

/-- The regex /[^a-zA-Z0-9-_./]/ tests positive on s. -/
def hasInvalidChar (s : String) : Bool := s.data.any (fun c => !(validChar c))

/-- GitFlow.isValidBranchName (lines 173-186) on the array the CLI passes:
exits on more than one token or on an invalid character, otherwise returns
the boolean isValid (true) — NOT the branch name.  An empty array yields
JavaScript undefined, which the regex test coerces to the string
"undefined". -/
def isValidBranchNameT (tokens : List String) : M Bool :=
  if 1 < tokens.length then
    throwM (.validation
      ("Branch name '" ++ String.intercalate " " tokens ++ "' cannot contain spaces."))
  else
    let branchName := tokens.headD "undefined"
    if hasInvalidChar branchName then
      throwM (.validation
        ("Invalid branch name '" ++ branchName ++
          "'. Use only letters, numbers, hyphens and underscores."))
    else pure true

/-- JavaScript String(b) for a boolean, as template literals apply it when
the callers of isValidBranchName interpolate its boolean result. -/
def jsBoolToString (b : Bool) : String := if b then "true" else "false"

/-- One numeric component of the version regex: (0|[1-9]\d*). -/
def numOk (s : String) : Bool :=
  match s.data with
  | [] => false
  | c :: cs => (c :: cs).all Char.isDigit && (s = "0" || c ≠ '0')

/-- utils.js validateVersion: the anchored regex
(0|[1-9]\d*).(0|[1-9]\d*).(0|[1-9]\d*) with literal dots — the string must be
exactly three dot-separated components each matching (0|[1-9]\d*). -/
def validateVersion (version : String) : Bool :=
  match strSplitOnChar '.' version with
  | [a, b, c] => numOk a && numOk b && numOk c
  | _ => false

/-- GitFlow.isValidVersion (lines 162-166): exits on more than one token or
when the single token fails validateVersion; otherwise returns the token
itself (version[0]). -/
def isValidVersion (version : List String) : M String :=
  if 1 < version.length then
    throwM (.validation
      ("Branch name '" ++ String.intercalate " " version ++ "' cannot contain spaces."))
  else if validateVersion (version.headD "undefined") = false then
    throwM (.validation
      ("'" ++ String.intercalate "," version ++ "' is not a valid version number"))
  else pure (version.headD "undefined")

-- 🔹 Branch operations (GitFlow.js lines 316-470)

/-- GitFlow.checkoutBranch (lines 344-354): no-op when already on the
branch; exits when the branch is missing locally or the tree is dirty;
otherwise queues checkout and pull. -/
def checkoutBranch (_cfg : Config) (repo : RepoState) (branch : String) : M Unit :=
  if getCurrentBranchName repo = branch then pure ()
  else if branchExistsLocal repo branch = false then
    throwM (.state (branch ++ " does not exist"))
  else do
    let _ ← checkWorkingTreeClean repo
    addCommand ("git checkout " ++ branch)
    addCommand "git pull"

/-- GitFlow.checkoutToMain (lines 360-364). -/
def checkoutToMain (cfg : Config) (repo : RepoState) : M Unit :=
  if cfg.mainBranch = "" then
    throwM (.configuration "Main branch is not found in the configuration")
  else if cfg.mainBranch = getCurrentBranchName repo then pure ()
  else checkoutBranch cfg repo cfg.mainBranch

/-- GitFlow.checkoutToDevelop (lines 370-375). -/
def checkoutToDevelop (cfg : Config) (repo : RepoState) : M Unit :=
  if cfg.developBranch = "" then
    throwM (.configuration "Develop branch is not found in the configuration")
  else if cfg.developBranch = getCurrentBranchName repo then pure ()
  else checkoutBranch cfg repo cfg.developBranch

/-- GitFlow.checkoutToStaging (lines 381-386). -/
def checkoutToStaging (cfg : Config) (repo : RepoState) : M Unit :=
  if cfg.useStaging = false then
    throwM (.configuration "Staging branch is not enabled in the configuration")
  else if cfg.stagingBranch = "" then
    throwM (.configuration "Staging branch is not found in the configuration")
  else if cfg.stagingBranch = getCurrentBranchName repo then pure ()
  else checkoutBranch cfg repo cfg.stagingBranch

/-- GitFlow.createBranch (lines 395-401). -/
def createBranch (repo : RepoState) (branchName fromBranch : String) : M Unit :=
  if branchExistsLocal repo branchName then
    throwM (.state (branchName ++ " already exists"))
  else addCommand ("git checkout -b " ++ branchName ++ " " ++ fromBranch)

/-- GitFlow.pushBranch (lines 466-470): pushes the branch git currently has
checked out — a live query, unaffected by commands that are merely queued. -/
def pushBranch (repo : RepoState) : M Unit :=
  addCommand ("git push origin " ++ getCurrentBranchName repo)

/-- GitFlow.mergeBranch (lines 410-418): queues checkout of the target and
the merge, then runs conflict detection (against the current working tree:
the queue has not been flushed), exits on conflicts, and queues a push of
the current branch when pushBranches is set. -/
def mergeBranch (cfg : Config) (repo : RepoState) (sourceBranch targetBranch : String) :
    M Unit := do
  addCommand ("git checkout " ++ targetBranch)
  addCommand ("git merge --no-ff " ++ sourceBranch)
  let conflicts ← checkMergeConflicts repo
  if conflicts then throwM (.mergeConflict "Please resolve merge conflicts and try again")
  else if cfg.pushBranches then pushBranch repo
  else pure ()

/-- GitFlow.addTag (lines 322-325). -/
def addTag (version : String) : M Unit :=
  addCommand ("git tag -a v" ++ version ++ " -m \x22v" ++ version ++ "\x22")

/-- GitFlow.deleteBranch (lines 425-437): queues local deletion and, when
pushBranches is set, remote deletion. -/
def deleteBranch (cfg : Config) (repo : RepoState) (branchName : String) : M Unit :=
  if branchExistsLocal repo branchName = false then
    throwM (.state (branchName ++ " does not exist"))
  else do
    addCommand ("git branch -d " ++ branchName)
    if cfg.pushBranches then addCommand ("git push origin --delete " ++ branchName)
    else pure ()

-- 🔹 Command execution (GitFlow.js lines 195-219)

/-- The executor loop of runCommands: run each queued command in order,
recording it, and exit with the command's stderr (or stdout when stderr is
empty) at the first non-zero exit code. -/
def execList (exec : String → ExecResult) : List String → M Unit
  | [] => pure ()
  | c :: rest => fun s =>
    let r := exec c
    let s' : St := ⟨s.queue, s.executed ++ [c]⟩
    if r.code ≠ 0 then
      (.error (.commandExecution (if r.stderr = "" then r.stdout else r.stderr)), s')
    else execList exec rest s'

/-- GitFlow.runCommands: in debug mode prints the queue and exits (status 1)
without executing anything; otherwise executes the queue in order. -/
def runCommands (cfg : Config) (exec : String → ExecResult) : M Unit := fun s =>
  if cfg.debug then (.error .debugExit, s)
  else execList exec s.queue s

-- 🔹 Lifecycle workflows (GitFlow.js lines 654-869)

/-- GitFlow.startFeature (lines 654-672).  Note the validated name is the
BOOLEAN returned by isValidBranchName, which string interpolation turns into
"true". -/
def startFeature (cfg : Config) (repo : RepoState) (exec : String → ExecResult)
    (name : List String) : M Unit := do
  let v ← isValidBranchNameT name
  let name := jsBoolToString v
  let featureBranchName := cfg.prefixFeature ++ name
  if branchExistsLocal repo featureBranchName then
    throwM (.state (featureBranchName ++ " already exists"))
  else do
    checkoutToDevelop cfg repo
    createBranch repo featureBranchName cfg.developBranch
    runCommands cfg exec

/-- GitFlow.finishFeature (lines 681-706). -/
def finishFeature (cfg : Config) (repo : RepoState) (exec : String → ExecResult)
    (name : List String) : M Unit := do
  let v ← isValidBranchNameT name
  let name := jsBoolToString v
  let featureBranchName := cfg.prefixFeature ++ name
  if branchExistsLocal repo featureBranchName = false then
    throwM (.state (featureBranchName ++ " does not exist"))
  else if branchesMatch repo featureBranchName cfg.developBranch then
    throwM (.state ("No commits yet on " ++ featureBranchName))
  else do
    checkoutToDevelop cfg repo
    mergeBranch cfg repo featureBranchName cfg.developBranch
    if cfg.useStaging then do
      checkoutToStaging cfg repo
      mergeBranch cfg repo featureBranchName cfg.stagingBranch
    else pure ()
    deleteBranch cfg repo featureBranchName
    runCommands cfg exec

/-- GitFlow.startRelease (lines 716-726). -/
def startRelease (cfg : Config) (repo : RepoState) (exec : String → ExecResult)
    (version : List String) : M Unit := do
  let v ← isValidVersion version
  let releaseBranchName := cfg.prefixRelease ++ v
  if branchExistsLocal repo releaseBranchName then
    throwM (.state (releaseBranchName ++ " already exists"))
  else do
    checkoutToDevelop cfg repo
    createBranch repo releaseBranchName cfg.developBranch
    runCommands cfg exec

/-- GitFlow.finishRelease (lines 734-763).  There is no branchesMatch
("no commits yet") check in this workflow. -/
def finishRelease (cfg : Config) (repo : RepoState) (exec : String → ExecResult)
    (version : List String) : M Unit := do
  let v ← isValidVersion version
  let releaseBranchName := cfg.prefixRelease ++ v
  if branchExistsLocal repo releaseBranchName = false then
    throwM (.state (releaseBranchName ++ " does not exist"))
  else do
    checkoutToMain cfg repo
    mergeBranch cfg repo releaseBranchName cfg.mainBranch
    addTag v
    checkoutToDevelop cfg repo
    mergeBranch cfg repo releaseBranchName cfg.developBranch
    if cfg.useStaging then do
      checkoutToStaging cfg repo
      mergeBranch cfg repo releaseBranchName cfg.stagingBranch
    else pure ()
    deleteBranch cfg repo releaseBranchName
    runCommands cfg exec

/-- GitFlow.startBugfix (lines 772-782). -/
def startBugfix (cfg : Config) (repo : RepoState) (exec : String → ExecResult)
    (name : List String) : M Unit := do
  let v ← isValidBranchNameT name
  let name := jsBoolToString v
  let bugfixBranchName := cfg.prefixBugfix ++ name
  if branchExistsLocal repo bugfixBranchName then
    throwM (.state (bugfixBranchName ++ " already exists"))
  else do
    checkoutToDevelop cfg repo
    createBranch repo bugfixBranchName cfg.developBranch
    runCommands cfg exec

/-- GitFlow.finishBugfix (lines 790-815). -/
def finishBugfix (cfg : Config) (repo : RepoState) (exec : String → ExecResult)
    (name : List String) : M Unit := do
  let v ← isValidBranchNameT name
  let name := jsBoolToString v
  let bugfixBranchName := cfg.prefixBugfix ++ name
  if branchExistsLocal repo bugfixBranchName = false then
    throwM (.state (bugfixBranchName ++ " does not exist"))
  else if branchesMatch repo bugfixBranchName cfg.developBranch then
    throwM (.state ("No commits yet on " ++ bugfixBranchName))
  else do
    checkoutToDevelop cfg repo
    mergeBranch cfg repo bugfixBranchName cfg.developBranch
    if cfg.useStaging then do
      checkoutToStaging cfg repo
      mergeBranch cfg repo bugfixBranchName cfg.stagingBranch
    else pure ()
    deleteBranch cfg repo bugfixBranchName
    runCommands cfg exec

/-- GitFlow.startHotfix (lines 824-834): bases on the main branch. -/
def startHotfix (cfg : Config) (repo : RepoState) (exec : String → ExecResult)
    (name : List String) : M Unit := do
  let v ← isValidBranchNameT name
  let name := jsBoolToString v
  let hotfixBranchName := cfg.prefixHotfix ++ name
  if branchExistsLocal repo hotfixBranchName then
    throwM (.state (hotfixBranchName ++ " already exists"))
  else do
    checkoutToMain cfg repo
    createBranch repo hotfixBranchName cfg.mainBranch
    runCommands cfg exec

/-- GitFlow.finishHotfix (lines 842-869). -/
def finishHotfix (cfg : Config) (repo : RepoState) (exec : String → ExecResult)
    (name : List String) : M Unit := do
  let v ← isValidBranchNameT name
  let name := jsBoolToString v
  let hotfixBranchName := cfg.prefixHotfix ++ name
  if branchExistsLocal repo hotfixBranchName = false then
    throwM (.state (hotfixBranchName ++ " does not exist"))
  else if branchesMatch repo hotfixBranchName cfg.mainBranch then
    throwM (.state ("No commits yet on " ++ hotfixBranchName))
  else do
    checkoutToMain cfg repo
    mergeBranch cfg repo hotfixBranchName cfg.mainBranch
    checkoutToDevelop cfg repo
    mergeBranch cfg repo hotfixBranchName cfg.developBranch
    if cfg.useStaging then do
      checkoutToStaging cfg repo
      mergeBranch cfg repo hotfixBranchName cfg.stagingBranch
    else pure ()
    deleteBranch cfg repo hotfixBranchName
    runCommands cfg exec

/-- The CLI action of `gitflow switch <branch>` (bin entry, part_000 lines
58-61): it calls checkoutBranch and nothing else — in particular it never
calls runCommands, so the queued commands are never executed. -/
def switchCommand (cfg : Config) (repo : RepoState) (branch : String) : M Unit :=
  checkoutBranch cfg repo branch

-- 🔹 Branch kinds (spec section 3) and dispatch over the four workflows

/-- The fixed variant set of branch kinds. -/
inductive Kind where
  | feature
  | release
  | bugfix
  | hotfix
  deriving Repr, DecidableEq

/-- The configured prefix of a kind. -/
def kindPrefixOf (k : Kind) (cfg : Config) : String :=
  match k with
  | .feature => cfg.prefixFeature
  | .release => cfg.prefixRelease
  | .bugfix => cfg.prefixBugfix
  | .hotfix => cfg.prefixHotfix

/-- The base branch a kind starts from: main for hotfix, develop otherwise. -/
def baseBranchOf (k : Kind) (cfg : Config) : String :=
  match k with
  | .hotfix => cfg.mainBranch
  | _ => cfg.developBranch

/-- The first merge target of finish(kind): main for release and hotfix,
develop for feature and bugfix. -/
def firstTarget (k : Kind) (cfg : Config) : String :=
  match k with
  | .release => cfg.mainBranch
  | .hotfix => cfg.mainBranch
  | _ => cfg.developBranch

/-- The full branch name each workflow actually computes from the CLI
tokens: for release the validated version token, for the other kinds the
stringified boolean "true" (the isValidBranchName return value). -/
def fullNameOf (k : Kind) (cfg : Config) (tokens : List String) : String :=
  match k with
  | .release => cfg.prefixRelease ++ tokens.headD "undefined"
  | _ => kindPrefixOf k cfg ++ "true"

/-- Tokens that pass the input validation of the kind's workflows. -/
def argsOk (k : Kind) (tokens : List String) : Prop :=
  match k with
  | .release => ∃ v, tokens = [v] ∧ validateVersion v = true
  | _ => ∃ n, tokens = [n] ∧ hasInvalidChar n = false

/-- start(kind, tokens), dispatching to the four start methods. -/
def startOp (k : Kind) : Config → RepoState → (String → ExecResult) → List String → M Unit :=
  match k with
  | .feature => startFeature
  | .release => startRelease
  | .bugfix => startBugfix
  | .hotfix => startHotfix

/-- finish(kind, tokens), dispatching to the four finish methods. -/
def finishOp (k : Kind) : Config → RepoState → (String → ExecResult) → List String → M Unit :=
  match k with
  | .feature => finishFeature
  | .release => finishRelease
  | .bugfix => finishBugfix
  | .hotfix => finishHotfix

-- 🔹 Basic lemmas about the computation model

theorem pure_apply {α : Type} (a : α) (s : St) : (pure a : M α) s = (.ok a, s) := rfl

theorem throwM_apply {α : Type} (e : GFError) (s : St) :
    (throwM e : M α) s = (.error e, s) := rfl

theorem addCommand_apply (c : String) (s : St) :
    addCommand c s = (.ok (), ⟨s.queue ++ [c], s.executed⟩) := rfl

theorem bind_ok {α β : Type} {x : M α} {f : α → M β} {s s' : St} {a : α}
    (h : x s = (.ok a, s')) : (x >>= f) s = f a s' := by
  show (match x s with
        | (.ok a, s') => f a s'
        | (.error e, s') => (.error e, s')) = f a s'
  rw [h]

theorem bind_err {α β : Type} {x : M α} {f : α → M β} {s s' : St} {e : GFError}
    (h : x s = (.error e, s')) : (x >>= f) s = (.error e, s') := by
  show (match x s with
        | (.ok a, s') => f a s'
        | (.error e, s') => (.error e, s')) = (.error e, s')
  rw [h]

theorem bind_assoc_M {α β γ : Type} (x : M α) (f : α → M β) (g : β → M γ) :
    ((x >>= f) >>= g) = x >>= fun a => (f a >>= g) := by
  show bindM (bindM x f) g = bindM x fun a => bindM (f a) g
  funext s
  unfold bindM
  rcases x s with ⟨res, s'⟩
  cases res
  · rfl
  · rfl

theorem addTag_apply (version : String) (s : St) :
    addTag version s =
      (.ok (), ⟨s.queue ++
        ["git tag -a v" ++ version ++ " -m \x22v" ++ version ++ "\x22"], s.executed⟩) := rfl

-- 🔹 Step lemmas for the individual methods

theorem checkWorkingTreeClean_clean {repo : RepoState} (s : St)
    (h : strTrim repo.statusStdout = "") :
    checkWorkingTreeClean repo s = (.ok true, s) := by
  unfold checkWorkingTreeClean
  rw [if_neg (by simp [h])]
  rfl

theorem checkWorkingTreeClean_dirty {repo : RepoState} (s : St)
    (h : strTrim repo.statusStdout ≠ "") :
    checkWorkingTreeClean repo s =
      (.error (.state
        "Uncommitted changes exist. Please commit or stash your changes before switching branches."),
       s) := by
  unfold checkWorkingTreeClean
  rw [if_pos h]
  rfl

theorem checkoutBranch_same {cfg : Config} {repo : RepoState} {branch : String} (s : St)
    (h : getCurrentBranchName repo = branch) :
    checkoutBranch cfg repo branch s = (.ok (), s) := by
  unfold checkoutBranch
  rw [if_pos h]
  rfl

theorem checkoutBranch_missing {cfg : Config} {repo : RepoState} {branch : String} (s : St)
    (h1 : getCurrentBranchName repo ≠ branch)
    (h2 : branchExistsLocal repo branch = false) :
    checkoutBranch cfg repo branch s = (.error (.state (branch ++ " does not exist")), s) := by
  unfold checkoutBranch
  rw [if_neg h1, if_pos h2]
  rfl

theorem checkoutBranch_dirty {cfg : Config} {repo : RepoState} {branch : String} (s : St)
    (h1 : getCurrentBranchName repo ≠ branch)
    (h2 : branchExistsLocal repo branch = true)
    (h3 : strTrim repo.statusStdout ≠ "") :
    checkoutBranch cfg repo branch s =
      (.error (.state
        "Uncommitted changes exist. Please commit or stash your changes before switching branches."),
       s) := by
  unfold checkoutBranch
  rw [if_neg h1, if_neg (by simp [h2])]
  exact bind_err (checkWorkingTreeClean_dirty s h3)

theorem checkoutBranch_go {cfg : Config} {repo : RepoState} {branch : String} (s : St)
    (h1 : getCurrentBranchName repo ≠ branch)
    (h2 : branchExistsLocal repo branch = true)
    (h3 : strTrim repo.statusStdout = "") :
    checkoutBranch cfg repo branch s =
      (.ok (), ⟨s.queue ++ ["git checkout " ++ branch, "git pull"], s.executed⟩) := by
  unfold checkoutBranch
  rw [if_neg h1, if_neg (by simp [h2])]
  rw [bind_ok (checkWorkingTreeClean_clean s h3)]
  rw [bind_ok (addCommand_apply _ s)]
  rw [addCommand_apply]
  simp

theorem checkoutToMain_same {cfg : Config} {repo : RepoState} (s : St)
    (hM : cfg.mainBranch ≠ "")
    (h : cfg.mainBranch = getCurrentBranchName repo) :
    checkoutToMain cfg repo s = (.ok (), s) := by
  unfold checkoutToMain
  rw [if_neg hM, if_pos h]
  rfl

theorem checkoutToMain_go {cfg : Config} {repo : RepoState} (s : St)
    (hM : cfg.mainBranch ≠ "")
    (h1 : cfg.mainBranch ≠ getCurrentBranchName repo)
    (h2 : branchExistsLocal repo cfg.mainBranch = true)
    (h3 : strTrim repo.statusStdout = "") :
    checkoutToMain cfg repo s =
      (.ok (), ⟨s.queue ++ ["git checkout " ++ cfg.mainBranch, "git pull"], s.executed⟩) := by
  unfold checkoutToMain
  rw [if_neg hM, if_neg h1]
  exact checkoutBranch_go s (fun e => h1 e.symm) h2 h3

theorem checkoutToDevelop_same {cfg : Config} {repo : RepoState} (s : St)
    (hD : cfg.developBranch ≠ "")
    (h : cfg.developBranch = getCurrentBranchName repo) :
    checkoutToDevelop cfg repo s = (.ok (), s) := by
  unfold checkoutToDevelop
  rw [if_neg hD, if_pos h]
  rfl

theorem checkoutToDevelop_go {cfg : Config} {repo : RepoState} (s : St)
    (hD : cfg.developBranch ≠ "")
    (h1 : cfg.developBranch ≠ getCurrentBranchName repo)
    (h2 : branchExistsLocal repo cfg.developBranch = true)
    (h3 : strTrim repo.statusStdout = "") :
    checkoutToDevelop cfg repo s =
      (.ok (), ⟨s.queue ++ ["git checkout " ++ cfg.developBranch, "git pull"], s.executed⟩) := by
  unfold checkoutToDevelop
  rw [if_neg hD, if_neg h1]
  exact checkoutBranch_go s (fun e => h1 e.symm) h2 h3

theorem checkoutToStaging_go {cfg : Config} {repo : RepoState} (s : St)
    (hU : cfg.useStaging = true)
    (hS : cfg.stagingBranch ≠ "")
    (h1 : cfg.stagingBranch ≠ getCurrentBranchName repo)
    (h2 : branchExistsLocal repo cfg.stagingBranch = true)
    (h3 : strTrim repo.statusStdout = "") :
    checkoutToStaging cfg repo s =
      (.ok (), ⟨s.queue ++ ["git checkout " ++ cfg.stagingBranch, "git pull"], s.executed⟩) := by
  unfold checkoutToStaging
  rw [if_neg (by simp [hU]), if_neg hS, if_neg h1]
  exact checkoutBranch_go s (fun e => h1 e.symm) h2 h3

theorem createBranch_go {repo : RepoState} {branchName fromBranch : String} (s : St)
    (h : branchExistsLocal repo branchName = false) :
    createBranch repo branchName fromBranch s =
      (.ok (), ⟨s.queue ++ ["git checkout -b " ++ branchName ++ " " ++ fromBranch],
                s.executed⟩) := by
  unfold createBranch
  rw [if_neg (by simp [h])]
  rfl

theorem checkMergeConflicts_none {repo : RepoState} (s : St)
    (hs : repo.diffStderr = "")
    (hc : conflictFiles repo = []) :
    checkMergeConflicts repo s = (.ok false, s) := by
  unfold checkMergeConflicts
  rw [if_neg (by simp [hs]), if_neg (by simp [hc])]
  rfl

theorem checkMergeConflicts_found {repo : RepoState} (s : St)
    (hs : repo.diffStderr = "")
    (hc : conflictFiles repo ≠ []) :
    checkMergeConflicts repo s = (.ok true, s) := by
  unfold checkMergeConflicts
  rw [if_neg (by simp [hs]), if_pos (List.length_pos.mpr hc)]
  rfl

theorem mergeBranch_ok {cfg : Config} {repo : RepoState} {sourceBranch targetBranch : String}
    (s : St)
    (hs : repo.diffStderr = "")
    (hc : conflictFiles repo = []) :
    mergeBranch cfg repo sourceBranch targetBranch s =
      (.ok (), ⟨s.queue ++
        (["git checkout " ++ targetBranch, "git merge --no-ff " ++ sourceBranch] ++
          (if cfg.pushBranches then ["git push origin " ++ getCurrentBranchName repo] else [])),
        s.executed⟩) := by
  unfold mergeBranch
  rw [bind_ok (addCommand_apply _ s)]
  rw [bind_ok (addCommand_apply _ _)]
  rw [bind_ok (checkMergeConflicts_none _ hs hc)]
  by_cases hp : cfg.pushBranches
  · rw [if_neg (by simp), if_pos hp]
    unfold pushBranch
    rw [addCommand_apply]
    simp [hp]
  · rw [if_neg (by simp), if_neg hp]
    simp [hp, pure_apply]

theorem mergeBranch_conflict {cfg : Config} {repo : RepoState}
    {sourceBranch targetBranch : String} (s : St)
    (hs : repo.diffStderr = "")
    (hc : conflictFiles repo ≠ []) :
    mergeBranch cfg repo sourceBranch targetBranch s =
      (.error (.mergeConflict "Please resolve merge conflicts and try again"),
       ⟨s.queue ++ ["git checkout " ++ targetBranch, "git merge --no-ff " ++ sourceBranch],
        s.executed⟩) := by
  unfold mergeBranch
  rw [bind_ok (addCommand_apply _ s)]
  rw [bind_ok (addCommand_apply _ _)]
  rw [bind_ok (checkMergeConflicts_found _ hs hc)]
  rw [if_pos rfl]
  rw [throwM_apply]
  simp

theorem deleteBranch_go {cfg : Config} {repo : RepoState} {branchName : String} (s : St)
    (h : branchExistsLocal repo branchName = true) :
    deleteBranch cfg repo branchName s =
      (.ok (), ⟨s.queue ++
        (["git branch -d " ++ branchName] ++
          (if cfg.pushBranches then ["git push origin --delete " ++ branchName] else [])),
        s.executed⟩) := by
  unfold deleteBranch
  rw [if_neg (by simp [h])]
  rw [bind_ok (addCommand_apply _ s)]
  by_cases hp : cfg.pushBranches
  · rw [if_pos hp, addCommand_apply]
    simp [hp]
  · rw [if_neg hp]
    simp [hp, pure_apply]

theorem execList_ok {exec : String → ExecResult}
    (hexec : ∀ c, (exec c).code = 0) :
    ∀ (l : List String) (s : St), execList exec l s = (.ok (), ⟨s.queue, s.executed ++ l⟩)
  | [], s => by simp [execList, pure_apply]
  | c :: rest, s => by
    unfold execList
    rw [if_neg (by simp [hexec c])]
    rw [execList_ok hexec rest]
    simp

theorem runCommands_ok {cfg : Config} {exec : String → ExecResult} (s : St)
    (hd : cfg.debug = false)
    (hexec : ∀ c, (exec c).code = 0) :
    runCommands cfg exec s = (.ok (), ⟨s.queue, s.executed ++ s.queue⟩) := by
  unfold runCommands
  rw [if_neg (by simp [hd])]
  exact execList_ok hexec s.queue s

theorem isValidBranchNameT_single {n : String} (s : St)
    (h : hasInvalidChar n = false) :
    isValidBranchNameT [n] s = (.ok true, s) := by
  unfold isValidBranchNameT
  rw [if_neg (by simp)]
  simp only [List.headD]
  rw [if_neg (by simp [h])]
  rfl

theorem isValidVersion_single {v : String} (s : St)
    (h : validateVersion v = true) :
    isValidVersion [v] s = (.ok v, s) := by
  unfold isValidVersion
  rw [if_neg (by simp)]
  simp only [List.headD]
  rw [if_neg (by simp [h])]
  rfl

theorem jsBoolToString_true : jsBoolToString true = "true" := rfl

theorem checkoutToMain_dirty {cfg : Config} {repo : RepoState} (s : St)
    (hM : cfg.mainBranch ≠ "")
    (h1 : cfg.mainBranch ≠ getCurrentBranchName repo)
    (h2 : branchExistsLocal repo cfg.mainBranch = true)
    (h3 : strTrim repo.statusStdout ≠ "") :
    checkoutToMain cfg repo s =
      (.error (.state
        "Uncommitted changes exist. Please commit or stash your changes before switching branches."),
       s) := by
  unfold checkoutToMain
  rw [if_neg hM, if_neg h1]
  exact checkoutBranch_dirty s (fun e => h1 e.symm) h2 h3

theorem checkoutToDevelop_dirty {cfg : Config} {repo : RepoState} (s : St)
    (hD : cfg.developBranch ≠ "")
    (h1 : cfg.developBranch ≠ getCurrentBranchName repo)
    (h2 : branchExistsLocal repo cfg.developBranch = true)
    (h3 : strTrim repo.statusStdout ≠ "") :
    checkoutToDevelop cfg repo s =
      (.error (.state
        "Uncommitted changes exist. Please commit or stash your changes before switching branches."),
       s) := by
  unfold checkoutToDevelop
  rw [if_neg hD, if_neg h1]
  exact checkoutBranch_dirty s (fun e => h1 e.symm) h2 h3

-- 🔹 String disequality helpers (commands with distinct literal prefixes differ)

theorem strDataAppend (a b : String) : (a ++ b).data = a.data ++ b.data := rfl

theorem listGetAppendLeft {α : Type} : ∀ (l₁ l₂ : List α) (n : Nat), n < l₁.length →
    (l₁ ++ l₂).get? n = l₁.get? n
  | [], _, n, h => by simp at h
  | _ :: _, _, 0, _ => rfl
  | _ :: as, l₂, n + 1, h => by
    simp only [List.cons_append, List.get?]
    exact listGetAppendLeft as l₂ n (by simpa using h)

theorem litAppend_ne {p q : String} (x y : String) (i : Nat)
    (hp : i < p.data.length) (hq : i < q.data.length)
    (hne : p.data.get? i ≠ q.data.get? i) : p ++ x ≠ q ++ y := by
  intro h
  apply hne
  have h2 : (p ++ x).data = (q ++ y).data := by rw [h]
  rw [strDataAppend, strDataAppend] at h2
  have h3 := congrArg (fun l => l.get? i) h2
  simp only at h3
  rw [listGetAppendLeft _ _ _ hp, listGetAppendLeft _ _ _ hq] at h3
  exact h3

theorem litAppend_ne_str {p : String} (x : String) (q : String) (i : Nat)
    (hp : i < p.data.length)
    (hne : p.data.get? i ≠ q.data.get? i) : p ++ x ≠ q := by
  intro h
  apply hne
  have h2 : (p ++ x).data = q.data := by rw [h]
  rw [strDataAppend] at h2
  have h3 := congrArg (fun l => l.get? i) h2
  simp only at h3
  rw [listGetAppendLeft _ _ _ hp] at h3
  exact h3

-- 🔹 Concrete fixtures for witnesses and counterexamples

/-- The default configuration shipped with the tool (#defaultConfig). -/
def cfgDefault : Config :=
  { mainBranch := "main", developBranch := "develop", useStaging := false,
    stagingBranch := "", pushBranches := true, createBranches := false,
    debug := false, prefixFeature := "feature/", prefixRelease := "release/",
    prefixBugfix := "bugfix/", prefixHotfix := "hotfix/" }

/-- Default configuration with pushBranches off. -/
def cfgNoPush : Config := { cfgDefault with pushBranches := false }

/-- Default configuration with a staging branch enabled. -/
def cfgStaging : Config := { cfgDefault with useStaging := true, stagingBranch := "staging" }

/-- A backend on which every command succeeds silently. -/
def execAllOk : String → ExecResult := fun _ => ⟨0, "", ""⟩

/-- Clean repository checked out on develop. -/
def repoOnDevelopClean : RepoState :=
  { currentBranch := "develop", localBranches := ["main", "develop"],
    hash := fun _ => "h", statusStdout := "", diffStdout := "", diffStderr := "" }

/-- Repository checked out on develop with uncommitted changes. -/
def repoOnDevelopDirty : RepoState :=
  { repoOnDevelopClean with statusStdout := " M file.txt\n" }

/-- Clean repository checked out on main. -/
def repoOnMainClean : RepoState :=
  { repoOnDevelopClean with currentBranch := "main" }

/-- Clean repository checked out on feature/true (the branch every feature
workflow actually computes), with the feature ahead of develop. -/
def repoFeatTrue : RepoState :=
  { currentBranch := "feature/true", localBranches := ["develop", "feature/true"],
    hash := fun b => if b = "feature/true" then "aaa" else "bbb",
    statusStdout := "", diffStdout := "", diffStderr := "" }

/-- Clean repository checked out on release/1.0.0 whose hash equals every
other branch hash (no commits since branching). -/
def repoRelEq : RepoState :=
  { currentBranch := "release/1.0.0",
    localBranches := ["main", "develop", "release/1.0.0"],
    hash := fun _ => "h", statusStdout := "", diffStdout := "", diffStderr := "" }

/-- Clean repository with main, develop, staging and release/2.0.0, checked
out on the release branch. -/
def repoRelStaging : RepoState :=
  { currentBranch := "release/2.0.0",
    localBranches := ["main", "develop", "staging", "release/2.0.0"],
    hash := fun b => if b = "release/2.0.0" then "rrr" else "hhh",
    statusStdout := "", diffStdout := "", diffStderr := "" }

-- 🔹 Claims

/-- C10: checkoutBranch on the currently checked-out branch returns
immediately as a no-op: the state (queue and executed list) is untouched and
no failure is possible, whatever the repository looks like — in particular
the local-existence check and the working-tree-clean check are skipped, so
the call succeeds even on a dirty tree or a branch name absent from the
local branch list. -/
theorem C10_checkout_current_is_noop (cfg : Config) (repo : RepoState) (branch : String)
    (s : St) (h : repo.currentBranch = branch) :
    checkoutBranch cfg repo branch s = (.ok (), s) :=
  checkoutBranch_same s h

/-- Witness for C10 at a concrete input: the tree is dirty and the target is
missing from the local branches, yet checking out the current branch
succeeds without touching the state. -/
theorem C10_witness :
    checkoutBranch cfgDefault repoOnDevelopDirty "develop" ⟨[], []⟩ = (.ok (), ⟨[], []⟩) ∧
    strTrim repoOnDevelopDirty.statusStdout ≠ "" :=
  ⟨C10_checkout_current_is_noop cfgDefault repoOnDevelopDirty "develop" ⟨[], []⟩ rfl,
   by decide⟩

/-- C9: isValidVersion fails on more than one token; on a single token it
fails unless validateVersion (the embedding of the anchored regex
(0|[1-9]d*).(0|[1-9]d*).(0|[1-9]d*)) accepts it, in which case the token
itself is returned; the spec's examples 1.2, 01.2.3 and 1.2.3-rc1 are
rejected and 1.2.3 is accepted. -/
theorem C9_isValidVersion_spec (toks : List String) (s : St) :
    (1 < toks.length → isValidVersion toks s =
      (.error (.validation
        ("Branch name '" ++ String.intercalate " " toks ++ "' cannot contain spaces.")), s)) ∧
    (∀ v, toks = [v] →
      isValidVersion toks s =
        (if validateVersion v then (.ok v, s)
         else (.error (.validation
           ("'" ++ String.intercalate "," toks ++ "' is not a valid version number")), s))) ∧
    validateVersion "1.2" = false ∧ validateVersion "01.2.3" = false ∧
    validateVersion "1.2.3-rc1" = false ∧ validateVersion "1.2.3" = true := by
  refine ⟨?_, ?_, by decide, by decide, by decide, by decide⟩
  · intro h
    unfold isValidVersion
    rw [if_pos h]
    rfl
  · intro v hv
    subst hv
    unfold isValidVersion
    rw [if_neg (by simp)]
    by_cases h : validateVersion v = true
    · rw [if_neg (by simp [h])]
      rw [if_pos h]
      rfl
    · rw [if_pos (by simp [h])]
      rw [if_neg h]
      rfl

/-- Witness for C9 at concrete inputs: a valid version is returned, an
invalid one and a two-token input are rejected with a validation error. -/
theorem C9_witness :
    isValidVersion ["1.0.0"] ⟨[], []⟩ = (.ok "1.0.0", ⟨[], []⟩) ∧
    isValidVersion ["1.2"] ⟨[], []⟩ =
      (.error (.validation "'1.2' is not a valid version number"), ⟨[], []⟩) ∧
    isValidVersion ["1.0.0", "2"] ⟨[], []⟩ =
      (.error (.validation "Branch name '1.0.0 2' cannot contain spaces."), ⟨[], []⟩) := by
  refine ⟨?_, ?_, ?_⟩
  · have h := (C9_isValidVersion_spec ["1.0.0"] ⟨[], []⟩).2.1 "1.0.0" rfl
    simpa using h
  · have h := (C9_isValidVersion_spec ["1.2"] ⟨[], []⟩).2.1 "1.2" rfl
    simpa using h
  · have h := (C9_isValidVersion_spec ["1.0.0", "2"] ⟨[], []⟩).1 (by decide)
    simpa using h

/-- C1: the claim says isValidBranchName returns the validated single-token
name, so the full branch name is prefix(kind) + name.  The code instead
returns the BOOLEAN isValid (its own doc comment says `@returns {boolean}`),
and the callers assign that boolean to the name and interpolate it, so the
full branch name of every feature started is "feature/true", never
"feature/login".  Multi-token and invalid-character rejection do behave as
claimed.  This theorem evaluates the code at the failing input ["login"]. -/
theorem C1_validation_returns_boolean :
    isValidBranchNameT ["login"] ⟨[], []⟩ = (.ok true, ⟨[], []⟩) ∧
    startFeature cfgDefault repoOnDevelopClean execAllOk ["login"] ⟨[], []⟩ =
      (.ok (), ⟨["git checkout -b feature/true develop"],
                ["git checkout -b feature/true develop"]⟩) ∧
    isValidBranchNameT ["log", "in"] ⟨[], []⟩ =
      (.error (.validation "Branch name 'log in' cannot contain spaces."), ⟨[], []⟩) ∧
    isValidBranchNameT ["log*in"] ⟨[], []⟩ =
      (.error (.validation
        "Invalid branch name 'log*in'. Use only letters, numbers, hyphens and underscores."),
       ⟨[], []⟩) :=
  ⟨rfl, rfl, rfl, rfl⟩

/-- C3 (amended): switchBranch(name), when the target differs from the
current branch, fails with a StateError if the target does not exist locally
or if the working tree is dirty; when the target equals the current branch
it is a no-op without checks; otherwise it only ENQUEUES checkout and pull —
the switch CLI action never calls runCommands, so the executed list stays
empty and nothing reaches the VCS backend. -/
theorem C3_switch_spec (cfg : Config) (repo : RepoState) (branch : String) (s : St) :
    (repo.currentBranch = branch → switchCommand cfg repo branch s = (.ok (), s)) ∧
    (repo.currentBranch ≠ branch → branchExistsLocal repo branch = false →
      switchCommand cfg repo branch s =
        (.error (.state (branch ++ " does not exist")), s)) ∧
    (repo.currentBranch ≠ branch → branchExistsLocal repo branch = true →
      strTrim repo.statusStdout ≠ "" →
      switchCommand cfg repo branch s =
        (.error (.state
          "Uncommitted changes exist. Please commit or stash your changes before switching branches."),
         s)) ∧
    (repo.currentBranch ≠ branch → branchExistsLocal repo branch = true →
      strTrim repo.statusStdout = "" →
      switchCommand cfg repo branch s =
        (.ok (), ⟨s.queue ++ ["git checkout " ++ branch, "git pull"], s.executed⟩)) := by
  refine ⟨?_, ?_, ?_, ?_⟩
  · intro h
    exact checkoutBranch_same s h
  · intro h1 h2
    exact checkoutBranch_missing s h1 h2
  · intro h1 h2 h3
    exact checkoutBranch_dirty s h1 h2 h3
  · intro h1 h2 h3
    exact checkoutBranch_go s h1 h2 h3

/-- Witness for C3 (amended) at concrete inputs: a missing target fails with
a StateError, and a clean switch to an existing other branch enqueues
checkout and pull while executing nothing. -/
theorem C3_witness :
    switchCommand cfgDefault repoOnMainClean "topic" ⟨[], []⟩ =
      (.error (.state "topic does not exist"), ⟨[], []⟩) ∧
    switchCommand cfgDefault repoOnMainClean "develop" ⟨[], []⟩ =
      (.ok (), ⟨["git checkout develop", "git pull"], []⟩) := by
  have h1 := (C3_switch_spec cfgDefault repoOnMainClean "topic" ⟨[], []⟩).2.1
    (by decide) (by decide)
  have h2 := (C3_switch_spec cfgDefault repoOnMainClean "develop" ⟨[], []⟩).2.2.2
    (by decide) (by decide) (by decide)
  exact ⟨h1, by simpa using h2⟩

/-- Counterexample to C3 as stated: (a) with a dirty working tree, switching
to the branch already checked out succeeds instead of failing with a
StateError; (b) on the successful path the checkout and pull are only
queued — the executed list stays empty, so nothing is "actually executed
against the VCS backend" (the switch CLI action never flushes the queue). -/
theorem C3_counterexample :
    (switchCommand cfgDefault repoOnDevelopDirty "develop" ⟨[], []⟩ = (.ok (), ⟨[], []⟩) ∧
      strTrim repoOnDevelopDirty.statusStdout ≠ "") ∧
    switchCommand cfgDefault repoOnMainClean "develop" ⟨[], []⟩ =
      (.ok (), ⟨["git checkout develop", "git pull"], []⟩) :=
  ⟨⟨rfl, by decide⟩, rfl⟩

/-- C4 (amended): when pushBranches is set, a successful merge step enqueues
— immediately after the merge command — a push of the branch git currently
has checked out (getCurrentBranchName is a live query and the queued
checkouts have not run), which coincides with the merge target only when the
workflow was invoked from that target branch. -/
theorem C4_merge_push_current (cfg : Config) (repo : RepoState)
    (sourceBranch targetBranch : String) (s : St)
    (hp : cfg.pushBranches = true)
    (hs : repo.diffStderr = "")
    (hc : conflictFiles repo = []) :
    mergeBranch cfg repo sourceBranch targetBranch s =
      (.ok (), ⟨s.queue ++
        ["git checkout " ++ targetBranch, "git merge --no-ff " ++ sourceBranch,
         "git push origin " ++ repo.currentBranch], s.executed⟩) := by
  rw [mergeBranch_ok s hs hc]
  simp [hp, getCurrentBranchName]

/-- Witness for C4 (amended) at a concrete input: merging feature/true into
develop while feature/true is checked out pushes feature/true right after
the merge. -/
theorem C4_witness :
    mergeBranch cfgDefault repoFeatTrue "feature/true" "develop" ⟨[], []⟩ =
      (.ok (), ⟨["git checkout develop", "git merge --no-ff feature/true",
                 "git push origin feature/true"], []⟩) := by
  have h := C4_merge_push_current cfgDefault repoFeatTrue "feature/true" "develop"
    ⟨[], []⟩ rfl rfl (by decide)
  simpa using h

/-- Counterexample to C4 as stated: finishing a feature into develop with
pushBranches set never enqueues "git push origin develop"; the push that
follows the merge is of the invoking branch feature/true. -/
theorem C4_counterexample :
    finishFeature cfgDefault repoFeatTrue execAllOk ["login"] ⟨[], []⟩ =
      (.ok (), ⟨["git checkout develop", "git pull",
                 "git checkout develop", "git merge --no-ff feature/true",
                 "git push origin feature/true",
                 "git branch -d feature/true",
                 "git push origin --delete feature/true"],
                ["git checkout develop", "git pull",
                 "git checkout develop", "git merge --no-ff feature/true",
                 "git push origin feature/true",
                 "git branch -d feature/true",
                 "git push origin --delete feature/true"]⟩) ∧
    "git push origin develop" ∉
      ["git checkout develop", "git pull",
       "git checkout develop", "git merge --no-ff feature/true",
       "git push origin feature/true",
       "git branch -d feature/true",
       "git push origin --delete feature/true"] :=
  ⟨rfl, by decide⟩

/-- C7: in a merge step, conflict detection runs after the checkout and
merge commands are enqueued but before the queue is flushed: when it fires,
the final queue already holds both commands while the executed list is
untouched; and (given a quiet diff stderr) whether it fires is determined
solely by the unmerged paths of the CURRENT working tree — the state before
the queued merge has run — not by anything the queued commands would do. -/
theorem C7_conflict_check_timing (cfg : Config) (repo : RepoState)
    (sourceBranch targetBranch : String) (s : St)
    (hs : repo.diffStderr = "") :
    ((mergeBranch cfg repo sourceBranch targetBranch s).1 =
        .error (.mergeConflict "Please resolve merge conflicts and try again")
      ↔ conflictFiles repo ≠ []) ∧
    (conflictFiles repo ≠ [] →
      mergeBranch cfg repo sourceBranch targetBranch s =
        (.error (.mergeConflict "Please resolve merge conflicts and try again"),
         ⟨s.queue ++ ["git checkout " ++ targetBranch,
                      "git merge --no-ff " ++ sourceBranch], s.executed⟩)) := by
  by_cases hc : conflictFiles repo = []
  · rw [mergeBranch_ok s hs hc]
    constructor
    · constructor
      · intro h
        by_cases hp : cfg.pushBranches <;> simp [hp] at h
      · intro h
        exact absurd hc h
    · intro h
      exact absurd hc h
  · rw [mergeBranch_conflict s hs hc]
    exact ⟨⟨fun _ => hc, fun _ => rfl⟩, fun _ => rfl⟩

/-- Witness for C7 at a concrete input: with one unmerged path reported, the
merge step fails with MergeConflictError; the queue holds exactly the
checkout and merge and nothing was executed. -/
theorem C7_witness :
    mergeBranch cfgDefault
      { repoFeatTrue with diffStdout := "src/app.js\n" }
      "feature/true" "develop" ⟨[], []⟩ =
      (.error (.mergeConflict "Please resolve merge conflicts and try again"),
       ⟨["git checkout develop", "git merge --no-ff feature/true"], []⟩) := by
  have h := (C7_conflict_check_timing cfgDefault
    { repoFeatTrue with diffStdout := "src/app.js\n" }
    "feature/true" "develop" ⟨[], []⟩ rfl).2 (by decide)
  simpa using h

/-- C2 (amended): for the kinds feature, bugfix and hotfix, finishing a
branch whose hash equals its base branch's hash (developBranch for
feature/bugfix, mainBranch for hotfix) fails with the "no commits yet"
StateError before any command is queued.  finishRelease performs no such
check (see the counterexample), so the claim's quantification over release
is dropped. -/
theorem C2_no_commits_guard (k : Kind) (cfg : Config) (repo : RepoState)
    (exec : String → ExecResult) (n : String) (s : St)
    (hk : k ≠ Kind.release)
    (hn : hasInvalidChar n = false)
    (hex : branchExistsLocal repo (fullNameOf k cfg [n]) = true)
    (hh : repo.hash (fullNameOf k cfg [n]) = repo.hash (baseBranchOf k cfg)) :
    finishOp k cfg repo exec [n] s =
      (.error (.state ("No commits yet on " ++ fullNameOf k cfg [n])), s) := by
  cases k
  case release => exact absurd rfl hk
  case feature =>
    simp only [fullNameOf, kindPrefixOf, baseBranchOf] at hex hh ⊢
    show finishFeature cfg repo exec [n] s = _
    unfold finishFeature
    rw [bind_ok (isValidBranchNameT_single s hn)]
    simp only [jsBoolToString_true]
    rw [if_neg (by simp [hex])]
    rw [if_pos (by simp [branchesMatch, hh])]
    rfl
  case bugfix =>
    simp only [fullNameOf, kindPrefixOf, baseBranchOf] at hex hh ⊢
    show finishBugfix cfg repo exec [n] s = _
    unfold finishBugfix
    rw [bind_ok (isValidBranchNameT_single s hn)]
    simp only [jsBoolToString_true]
    rw [if_neg (by simp [hex])]
    rw [if_pos (by simp [branchesMatch, hh])]
    rfl
  case hotfix =>
    simp only [fullNameOf, kindPrefixOf, baseBranchOf] at hex hh ⊢
    show finishHotfix cfg repo exec [n] s = _
    unfold finishHotfix
    rw [bind_ok (isValidBranchNameT_single s hn)]
    simp only [jsBoolToString_true]
    rw [if_neg (by simp [hex])]
    rw [if_pos (by simp [branchesMatch, hh])]
    rfl

/-- Witness for C2 (amended) at a concrete input: finishing a feature whose
branch hash equals develop's fails with the "no commits yet" StateError and
leaves the state untouched (repoOnDevelopClean's constant hash makes
feature/true match develop once it is local). -/
theorem C2_witness :
    finishFeature cfgDefault
      { repoOnDevelopClean with localBranches := ["main", "develop", "feature/true"] }
      execAllOk ["login"] ⟨[], []⟩ =
      (.error (.state "No commits yet on feature/true"), ⟨[], []⟩) := by
  have h := C2_no_commits_guard Kind.feature cfgDefault
    { repoOnDevelopClean with localBranches := ["main", "develop", "feature/true"] }
    execAllOk "login" ⟨[], []⟩ (by decide) (by decide) (by decide) rfl
  simpa using h

/-- The command queue finishRelease builds (and executes) in the
counterexample run of C2: hashes are all equal, yet the merges proceed. -/
def relEqQueue : List String :=
  ["git checkout main", "git pull",
   "git checkout main", "git merge --no-ff release/1.0.0",
   "git tag -a v1.0.0 -m \x22v1.0.0\x22",
   "git checkout develop", "git pull",
   "git checkout develop", "git merge --no-ff release/1.0.0",
   "git branch -d release/1.0.0"]

set_option maxHeartbeats 2000000 in
/-- Counterexample to C2 as stated: in repoRelEq every hash is equal, so
release/1.0.0's hash equals developBranch's (and mainBranch's), yet
finishRelease succeeds and queues (and executes) its merge commands instead
of failing with a StateError — finishRelease has no "no commits yet"
check. -/
theorem C2_counterexample :
    branchesMatch repoRelEq "release/1.0.0" "develop" = true ∧
    finishRelease cfgNoPush repoRelEq execAllOk ["1.0.0"] ⟨[], []⟩ =
      (.ok (), ⟨relEqQueue, relEqQueue⟩) ∧
    "git merge --no-ff release/1.0.0" ∈ relEqQueue :=
  ⟨by decide, rfl, by decide⟩

/-- C8 (amended): start(kind, name) checks the working tree only inside
checkoutBranch, which is reached only when the base branch differs from the
current branch: in that case a dirty tree fails with the StateError before
any command is queued (in particular before branch creation).  When the base
branch is already checked out, no clean check happens at all and the start
proceeds to create the branch despite the dirty tree. -/
theorem C8_start_dirty_guard (k : Kind) (cfg : Config) (repo : RepoState)
    (exec : String → ExecResult) (toks : List String) (s : St)
    (hargs : argsOk k toks)
    (hfull : branchExistsLocal repo (fullNameOf k cfg toks) = false)
    (hb0 : baseBranchOf k cfg ≠ "") :
    (baseBranchOf k cfg ≠ repo.currentBranch →
      branchExistsLocal repo (baseBranchOf k cfg) = true →
      strTrim repo.statusStdout ≠ "" →
      startOp k cfg repo exec toks s =
        (.error (.state
          "Uncommitted changes exist. Please commit or stash your changes before switching branches."),
         s)) ∧
    (baseBranchOf k cfg = repo.currentBranch →
      cfg.debug = false → (∀ c, (exec c).code = 0) →
      startOp k cfg repo exec toks s =
        (.ok (), ⟨s.queue ++
          ["git checkout -b " ++ fullNameOf k cfg toks ++ " " ++ baseBranchOf k cfg],
          s.executed ++ (s.queue ++
            ["git checkout -b " ++ fullNameOf k cfg toks ++ " " ++ baseBranchOf k cfg])⟩)) := by
  cases k
  case feature =>
    obtain ⟨nm, rfl, hnm⟩ := hargs
    simp only [fullNameOf, kindPrefixOf, baseBranchOf] at hfull hb0 ⊢
    constructor
    · intro h1 h2 h3
      show startFeature cfg repo exec [nm] s = _
      unfold startFeature
      rw [bind_ok (isValidBranchNameT_single s hnm)]
      simp only [jsBoolToString_true]
      rw [if_neg (by simp [hfull])]
      exact bind_err (checkoutToDevelop_dirty s hb0 h1 h2 h3)
    · intro h1 hd hexec
      show startFeature cfg repo exec [nm] s = _
      unfold startFeature
      rw [bind_ok (isValidBranchNameT_single s hnm)]
      simp only [jsBoolToString_true]
      rw [if_neg (by simp [hfull])]
      rw [bind_ok (checkoutToDevelop_same s hb0 h1)]
      rw [bind_ok (createBranch_go s hfull)]
      rw [runCommands_ok _ hd hexec]
  case release =>
    obtain ⟨v, rfl, hv⟩ := hargs
    simp only [fullNameOf, List.headD_cons, baseBranchOf] at hfull hb0 ⊢
    constructor
    · intro h1 h2 h3
      show startRelease cfg repo exec [v] s = _
      unfold startRelease
      rw [bind_ok (isValidVersion_single s hv)]
      rw [if_neg (by simp [hfull])]
      exact bind_err (checkoutToDevelop_dirty s hb0 h1 h2 h3)
    · intro h1 hd hexec
      show startRelease cfg repo exec [v] s = _
      unfold startRelease
      rw [bind_ok (isValidVersion_single s hv)]
      rw [if_neg (by simp [hfull])]
      rw [bind_ok (checkoutToDevelop_same s hb0 h1)]
      rw [bind_ok (createBranch_go s hfull)]
      rw [runCommands_ok _ hd hexec]
  case bugfix =>
    obtain ⟨nm, rfl, hnm⟩ := hargs
    simp only [fullNameOf, kindPrefixOf, baseBranchOf] at hfull hb0 ⊢
    constructor
    · intro h1 h2 h3
      show startBugfix cfg repo exec [nm] s = _
      unfold startBugfix
      rw [bind_ok (isValidBranchNameT_single s hnm)]
      simp only [jsBoolToString_true]
      rw [if_neg (by simp [hfull])]
      exact bind_err (checkoutToDevelop_dirty s hb0 h1 h2 h3)
    · intro h1 hd hexec
      show startBugfix cfg repo exec [nm] s = _
      unfold startBugfix
      rw [bind_ok (isValidBranchNameT_single s hnm)]
      simp only [jsBoolToString_true]
      rw [if_neg (by simp [hfull])]
      rw [bind_ok (checkoutToDevelop_same s hb0 h1)]
      rw [bind_ok (createBranch_go s hfull)]
      rw [runCommands_ok _ hd hexec]
  case hotfix =>
    obtain ⟨nm, rfl, hnm⟩ := hargs
    simp only [fullNameOf, kindPrefixOf, baseBranchOf] at hfull hb0 ⊢
    constructor
    · intro h1 h2 h3
      show startHotfix cfg repo exec [nm] s = _
      unfold startHotfix
      rw [bind_ok (isValidBranchNameT_single s hnm)]
      simp only [jsBoolToString_true]
      rw [if_neg (by simp [hfull])]
      exact bind_err (checkoutToMain_dirty s hb0 h1 h2 h3)
    · intro h1 hd hexec
      show startHotfix cfg repo exec [nm] s = _
      unfold startHotfix
      rw [bind_ok (isValidBranchNameT_single s hnm)]
      simp only [jsBoolToString_true]
      rw [if_neg (by simp [hfull])]
      rw [bind_ok (checkoutToMain_same s hb0 h1)]
      rw [bind_ok (createBranch_go s hfull)]
      rw [runCommands_ok _ hd hexec]

/-- Witness for C8 (amended) at a concrete input: starting a feature from a
dirty tree while main is checked out (so the base develop differs) fails
with the StateError and leaves the state untouched. -/
theorem C8_witness :
    startFeature cfgDefault { repoOnDevelopDirty with currentBranch := "main" }
      execAllOk ["login"] ⟨[], []⟩ =
      (.error (.state
        "Uncommitted changes exist. Please commit or stash your changes before switching branches."),
       ⟨[], []⟩) := by
  have h := (C8_start_dirty_guard Kind.feature cfgDefault
    { repoOnDevelopDirty with currentBranch := "main" } execAllOk ["login"] ⟨[], []⟩
    ⟨"login", rfl, by decide⟩ (by decide) (by decide)).1
    (by decide) (by decide) (by decide)
  simpa using h

/-- Counterexample to C8 as stated: with a dirty working tree but develop
(the base) already checked out, startFeature succeeds and creates the
branch — no clean check runs, contradicting "fails ... regardless of which
branch is currently checked out". -/
theorem C8_counterexample :
    strTrim repoOnDevelopDirty.statusStdout ≠ "" ∧
    startFeature cfgDefault repoOnDevelopDirty execAllOk ["login"] ⟨[], []⟩ =
      (.ok (), ⟨["git checkout -b feature/true develop"],
                ["git checkout -b feature/true develop"]⟩) :=
  ⟨by decide, rfl⟩

/-- The exact command sequence finishRelease enqueues when useStaging is on
and every step succeeds: merge into main (checkout main, pull, checkout
main, merge), then the annotated tag, then merge into develop, then merge
into staging, and only then the branch deletion; each merge is followed by
the push block when pushBranches is set. -/
def relOrderQueue (cfg : Config) (repo : RepoState) (v : String) : List String :=
  let rel := cfg.prefixRelease ++ v
  let push := if cfg.pushBranches then ["git push origin " ++ getCurrentBranchName repo] else []
  ["git checkout " ++ cfg.mainBranch, "git pull",
   "git checkout " ++ cfg.mainBranch, "git merge --no-ff " ++ rel] ++ push ++
  ["git tag -a v" ++ v ++ " -m \x22v" ++ v ++ "\x22"] ++
  ["git checkout " ++ cfg.developBranch, "git pull",
   "git checkout " ++ cfg.developBranch, "git merge --no-ff " ++ rel] ++ push ++
  ["git checkout " ++ cfg.stagingBranch, "git pull",
   "git checkout " ++ cfg.stagingBranch, "git merge --no-ff " ++ rel] ++ push ++
  ["git branch -d " ++ rel] ++
  (if cfg.pushBranches then ["git push origin --delete " ++ rel] else [])

/-- C5: with useStaging enabled (and every step clean), finishRelease builds
its queue in the exact order relOrderQueue describes: merge into mainBranch,
then the annotated tag v(version), then merge into developBranch, then merge
into stagingBranch, and only afterwards the branch deletion; the flush then
executes that same sequence. -/
theorem C5_finishRelease_order (cfg : Config) (repo : RepoState)
    (exec : String → ExecResult) (v : String) (s : St)
    (hv : validateVersion v = true)
    (hrel : branchExistsLocal repo (cfg.prefixRelease ++ v) = true)
    (hM : cfg.mainBranch ≠ "") (hD : cfg.developBranch ≠ "")
    (hU : cfg.useStaging = true) (hS : cfg.stagingBranch ≠ "")
    (hMcur : cfg.mainBranch ≠ repo.currentBranch)
    (hDcur : cfg.developBranch ≠ repo.currentBranch)
    (hScur : cfg.stagingBranch ≠ repo.currentBranch)
    (hMex : branchExistsLocal repo cfg.mainBranch = true)
    (hDex : branchExistsLocal repo cfg.developBranch = true)
    (hSex : branchExistsLocal repo cfg.stagingBranch = true)
    (hclean : strTrim repo.statusStdout = "")
    (hstderr : repo.diffStderr = "")
    (hconf : conflictFiles repo = [])
    (hdebug : cfg.debug = false)
    (hexec : ∀ c, (exec c).code = 0) :
    finishRelease cfg repo exec [v] s =
      (.ok (), ⟨s.queue ++ relOrderQueue cfg repo v,
                s.executed ++ (s.queue ++ relOrderQueue cfg repo v)⟩) := by
  unfold finishRelease
  rw [bind_ok (isValidVersion_single s hv)]
  rw [if_neg (by simp [hrel])]
  rw [bind_ok (checkoutToMain_go _ hM hMcur hMex hclean)]
  rw [bind_ok (mergeBranch_ok _ hstderr hconf)]
  rw [bind_ok (addTag_apply _ _)]
  rw [bind_ok (checkoutToDevelop_go _ hD hDcur hDex hclean)]
  rw [bind_ok (mergeBranch_ok _ hstderr hconf)]
  rw [if_pos hU]
  rw [bind_ok (checkoutToStaging_go _ hU hS hScur hSex hclean)]
  rw [bind_ok (mergeBranch_ok _ hstderr hconf)]
  simp only []
  rw [bind_ok (deleteBranch_go _ hrel)]
  rw [runCommands_ok _ hdebug hexec]
  simp [relOrderQueue, getCurrentBranchName, List.append_assoc]

/-- Witness for C5 at a concrete input: finishing release/2.0.0 with staging
enabled produces exactly the ordered queue and executes it. -/
theorem C5_witness :
    finishRelease cfgStaging repoRelStaging execAllOk ["2.0.0"] ⟨[], []⟩ =
      (.ok (), ⟨relOrderQueue cfgStaging repoRelStaging "2.0.0",
                relOrderQueue cfgStaging repoRelStaging "2.0.0"⟩) := by
  have h := C5_finishRelease_order cfgStaging repoRelStaging execAllOk "2.0.0" ⟨[], []⟩
    (by decide) (by decide) (by decide) (by decide) (by decide) (by decide)
    (by decide) (by decide) (by decide) (by decide) (by decide) (by decide)
    (by decide) (by decide) (by decide) (by decide) (fun c => rfl)
  simpa using h

/-- C6: when conflict detection reports unresolved paths, every finish
workflow fails with MergeConflictError at its first merge step: the final
queue holds exactly the checkout/pull of the first target plus the checkout
and merge commands of that step — no later command is enqueued — and the
executed list is untouched (the queue is never flushed); moreover none of
the enqueued commands is the local or remote branch-deletion command. -/
theorem C6_conflict_stops_finish (k : Kind) (cfg : Config) (repo : RepoState)
    (exec : String → ExecResult) (toks : List String) (s : St)
    (hargs : argsOk k toks)
    (hfull : branchExistsLocal repo (fullNameOf k cfg toks) = true)
    (hhash : repo.hash (fullNameOf k cfg toks) ≠ repo.hash (baseBranchOf k cfg))
    (ht0 : firstTarget k cfg ≠ "")
    (htc : firstTarget k cfg ≠ repo.currentBranch)
    (htex : branchExistsLocal repo (firstTarget k cfg) = true)
    (hclean : strTrim repo.statusStdout = "")
    (hstderr : repo.diffStderr = "")
    (hconf : conflictFiles repo ≠ []) :
    finishOp k cfg repo exec toks s =
      (.error (.mergeConflict "Please resolve merge conflicts and try again"),
       ⟨s.queue ++ ["git checkout " ++ firstTarget k cfg, "git pull",
                    "git checkout " ++ firstTarget k cfg,
                    "git merge --no-ff " ++ fullNameOf k cfg toks], s.executed⟩) ∧
    ∀ c ∈ ["git checkout " ++ firstTarget k cfg, "git pull",
           "git checkout " ++ firstTarget k cfg,
           "git merge --no-ff " ++ fullNameOf k cfg toks],
      c ≠ "git branch -d " ++ fullNameOf k cfg toks ∧
      c ≠ "git push origin --delete " ++ fullNameOf k cfg toks := by
  constructor
  · cases k
    case feature =>
      obtain ⟨nm, rfl, hnm⟩ := hargs
      simp only [fullNameOf, kindPrefixOf, baseBranchOf, firstTarget] at hfull hhash htc htex ht0 ⊢
      show finishFeature cfg repo exec [nm] s = _
      unfold finishFeature
      rw [bind_ok (isValidBranchNameT_single s hnm)]
      simp only [jsBoolToString_true]
      rw [if_neg (by simp [hfull])]
      rw [if_neg (by simp [branchesMatch, beq_iff_eq]; exact hhash)]
      rw [bind_ok (checkoutToDevelop_go _ ht0 htc htex hclean)]
      rw [bind_err (mergeBranch_conflict _ hstderr hconf)]
      simp [List.append_assoc]
    case release =>
      obtain ⟨v, rfl, hv⟩ := hargs
      simp only [fullNameOf, List.headD_cons, firstTarget] at hfull htc htex ht0 ⊢
      show finishRelease cfg repo exec [v] s = _
      unfold finishRelease
      rw [bind_ok (isValidVersion_single s hv)]
      rw [if_neg (by simp [hfull])]
      rw [bind_ok (checkoutToMain_go _ ht0 htc htex hclean)]
      rw [bind_err (mergeBranch_conflict _ hstderr hconf)]
      simp [List.append_assoc]
    case bugfix =>
      obtain ⟨nm, rfl, hnm⟩ := hargs
      simp only [fullNameOf, kindPrefixOf, baseBranchOf, firstTarget] at hfull hhash htc htex ht0 ⊢
      show finishBugfix cfg repo exec [nm] s = _
      unfold finishBugfix
      rw [bind_ok (isValidBranchNameT_single s hnm)]
      simp only [jsBoolToString_true]
      rw [if_neg (by simp [hfull])]
      rw [if_neg (by simp [branchesMatch, beq_iff_eq]; exact hhash)]
      rw [bind_ok (checkoutToDevelop_go _ ht0 htc htex hclean)]
      rw [bind_err (mergeBranch_conflict _ hstderr hconf)]
      simp [List.append_assoc]
    case hotfix =>
      obtain ⟨nm, rfl, hnm⟩ := hargs
      simp only [fullNameOf, kindPrefixOf, baseBranchOf, firstTarget] at hfull hhash htc htex ht0 ⊢
      show finishHotfix cfg repo exec [nm] s = _
      unfold finishHotfix
      rw [bind_ok (isValidBranchNameT_single s hnm)]
      simp only [jsBoolToString_true]
      rw [if_neg (by simp [hfull])]
      rw [if_neg (by simp [branchesMatch, beq_iff_eq]; exact hhash)]
      rw [bind_ok (checkoutToMain_go _ ht0 htc htex hclean)]
      rw [bind_err (mergeBranch_conflict _ hstderr hconf)]
      simp [List.append_assoc]
  · intro c hc
    simp only [List.mem_cons, List.not_mem_nil, or_false] at hc
    rcases hc with rfl | rfl | rfl | rfl
    · exact ⟨litAppend_ne _ _ 4 (by decide) (by decide) (by decide),
             litAppend_ne _ _ 4 (by decide) (by decide) (by decide)⟩
    · exact ⟨(litAppend_ne_str (fullNameOf k cfg toks) "git pull" 4 (by decide) (by decide)).symm,
             (litAppend_ne_str (fullNameOf k cfg toks) "git pull" 6 (by decide) (by decide)).symm⟩
    · exact ⟨litAppend_ne _ _ 4 (by decide) (by decide) (by decide),
             litAppend_ne _ _ 4 (by decide) (by decide) (by decide)⟩
    · exact ⟨litAppend_ne _ _ 4 (by decide) (by decide) (by decide),
             litAppend_ne _ _ 4 (by decide) (by decide) (by decide)⟩

/-- Witness for C6 at a concrete input: finishing feature/true with two
unmerged paths reported fails with MergeConflictError; the queue stops at
the merge of the first target and nothing was executed. -/
theorem C6_witness :
    finishFeature cfgDefault { repoFeatTrue with diffStdout := "a.txt\nb.txt" }
      execAllOk ["login"] ⟨[], []⟩ =
      (.error (.mergeConflict "Please resolve merge conflicts and try again"),
       ⟨["git checkout develop", "git pull",
         "git checkout develop", "git merge --no-ff feature/true"], []⟩) := by
  have h := (C6_conflict_stops_finish Kind.feature cfgDefault
    { repoFeatTrue with diffStdout := "a.txt\nb.txt" } execAllOk ["login"] ⟨[], []⟩
    ⟨"login", rfl, by decide⟩ (by decide) (by decide) (by decide) (by decide)
    (by decide) (by decide) (by decide) (by decide)).1
  simpa using h

end GitflowSpec
